import Mathlib

/-!
Verification development for the granola-sync repository.

This file gives a shallow embedding of the sync core:
the state manager (`state.py`), the change detector and orchestration
(`sync.py`), the webhook retry loop and HMAC signing (`webhook.py`),
and the ProseMirror-to-text projector (`sync.py`), together with
theorems checking the specified properties against the embedded code.
-/

/-! ## Python-value helpers

Optional string fields of Python dicts are modelled as `Option String`;
`none` stands for an absent key or `None`.  Python truthiness on such a
value (`if x:` / `x or y`) treats `None` and `""` as falsy. -/

/-- Truthiness of an optional string, as Python evaluates it. -/
def pyTruthy (o : Option String) : Bool :=
  match o with
  | none => false
  | some s => s ≠ ""

/-- Python `a or b` on optional strings: `b` exactly when `a` is falsy. -/
def pyOr (a b : Option String) : Option String :=
  if pyTruthy a then a else b

/-! ## Dict model

Python `dict` keyed by strings, as an association list.  Assignment
replaces the value in place when the key exists and appends otherwise;
`pop(k, None)` removes the key if present. -/

/-- Lookup in the dict model (`d.get(k)` / `k in d`). -/
def dictGet? (d : List (String × α)) (k : String) : Option α :=
  match d with
  | [] => none
  | (k', v) :: rest => if k' = k then some v else dictGet? rest k

/-- Dict assignment `d[k] = v`: replace in place or append. -/
def dictInsert (k : String) (v : α) (d : List (String × α)) : List (String × α) :=
  match d with
  | [] => [(k, v)]
  | (k', v') :: rest =>
    if k' = k then (k, v) :: rest else (k', v') :: dictInsert k v rest

/-- Dict removal `d.pop(k, None)`: the key is absent afterwards. -/
def dictErase (k : String) (d : List (String × α)) : List (String × α) :=
  match d with
  | [] => []
  | (k', v') :: rest =>
    if k' = k then dictErase k rest else (k', v') :: dictErase k rest

theorem dictGet?_insert_self (k : String) (v : α) (d : List (String × α)) :
    dictGet? (dictInsert k v d) k = some v := by
  induction d with
  | nil => simp [dictInsert, dictGet?]
  | cons hd tl ih =>
    obtain ⟨k', v'⟩ := hd
    by_cases h : k' = k <;> simp [dictInsert, dictGet?, h, ih]

theorem dictGet?_insert_ne (k i : String) (v : α) (d : List (String × α))
    (h : i ≠ k) : dictGet? (dictInsert k v d) i = dictGet? d i := by
  induction d with
  | nil => simp [dictInsert, dictGet?, Ne.symm h]
  | cons hd tl ih =>
    obtain ⟨k', v'⟩ := hd
    by_cases hk : k' = k
    · subst hk
      simp [dictInsert, dictGet?, Ne.symm h]
    · by_cases hi : k' = i
      · subst hi
        simp [dictInsert, dictGet?, hk]
      · simp [dictInsert, dictGet?, hk, hi, ih]

theorem dictGet?_erase_self (k : String) (d : List (String × α)) :
    dictGet? (dictErase k d) k = none := by
  induction d with
  | nil => simp [dictErase, dictGet?]
  | cons hd tl ih =>
    obtain ⟨k', v'⟩ := hd
    by_cases h : k' = k
    · simp [dictErase, dictGet?, h, ih]
    · simp [dictErase, dictGet?, h, ih]

theorem dictGet?_erase_ne (k i : String) (d : List (String × α))
    (h : i ≠ k) : dictGet? (dictErase k d) i = dictGet? d i := by
  induction d with
  | nil => simp [dictErase, dictGet?]
  | cons hd tl ih =>
    obtain ⟨k', v'⟩ := hd
    by_cases hk : k' = k
    · subst hk
      simp [dictErase, dictGet?, ih, Ne.symm h]
    · by_cases hi : k' = i
      · subst hi
        simp [dictErase, dictGet?, hk]
      · simp [dictErase, dictGet?, hk, hi, ih]

/-! ## State model (`state.py`)

`StateManager._state` restricted to the fields the sync core reads and
writes.  Wall-clock timestamps (`datetime.now(...).isoformat()`) are an
explicit `now` argument. -/

/-- Entry of `seen_documents`, as written by `StateManager.mark_synced`. -/
structure SeenRecord where
  title : String
  folder_name : String
  first_seen : String
  last_updated : Option String
  synced_at : String
  webhook_status : String
deriving Repr, DecidableEq

/-- Entry of `failed_documents`, as written by `StateManager.mark_failed`. -/
structure FailedRecord where
  title : String
  folder_name : String
  attempts : Nat
  last_error : String
  last_attempt : String
deriving Repr, DecidableEq

/-- The `stats` sub-document: totals plus per-folder (synced, errors). -/
structure SyncStats where
  total_synced : Nat
  total_errors : Nat
  last_error : Option String
  by_folder : List (String × (Nat × Nat))
deriving Repr, DecidableEq

/-- The in-memory state document (`StateManager._state`). -/
structure SyncState where
  last_sync : Option String
  seen_documents : List (String × SeenRecord)
  failed_documents : List (String × FailedRecord)
  stats : SyncStats
deriving Repr, DecidableEq

/-- A Granola document, restricted to the fields the sync core reads.
Each field models `doc.get(...)`: `none` is an absent key or `None`. -/
structure Doc where
  id : Option String
  title : Option String
  created_at : Option String
  updated_at : Option String
deriving Repr, DecidableEq

/-- Check `StateManager.is_document_seen`: membership in `seen_documents`. -/
def is_document_seen (st : SyncState) (doc_id : String) : Bool :=
  (dictGet? st.seen_documents doc_id).isSome

/-- Check `StateManager.is_document_updated`: true when the id is unseen or
the recorded `last_updated` differs from the presented timestamp. -/
def is_document_updated (st : SyncState) (doc_id : String)
    (updated_at : Option String) : Bool :=
  match dictGet? st.seen_documents doc_id with
  | none => true
  | some seen => seen.last_updated ≠ updated_at

/-- Bump a folder's pair in `stats.by_folder`, creating `(0, 0)` first when
absent, then applying `f` (mirrors the two-step update in `state.py`). -/
def bumpFolderStat (by_folder : List (String × (Nat × Nat)))
    (folder_name : String) (f : Nat × Nat → Nat × Nat) :
    List (String × (Nat × Nat)) :=
  let base := match dictGet? by_folder folder_name with
    | none => dictInsert folder_name (0, 0) by_folder
    | some _ => by_folder
  match dictGet? base folder_name with
  | none => base
  | some p => dictInsert folder_name (f p) base

/-- Model of `StateManager.mark_synced`. -/
def mark_synced (st : SyncState) (doc_id : String) (doc : Doc)
    (folder_name : String) (now : String) : SyncState :=
  let first_seen := match dictGet? st.seen_documents doc_id with
    | some r => r.first_seen
    | none => now
  let rec_ : SeenRecord :=
    { title := doc.title.getD "Untitled"
      folder_name := folder_name
      first_seen := first_seen
      last_updated := pyOr doc.updated_at doc.created_at
      synced_at := now
      webhook_status := "success" }
  { st with
    seen_documents := dictInsert doc_id rec_ st.seen_documents
    failed_documents := dictErase doc_id st.failed_documents
    stats :=
      { st.stats with
        total_synced := st.stats.total_synced + 1
        by_folder := bumpFolderStat st.stats.by_folder folder_name
          (fun p => (p.1 + 1, p.2)) } }

/-- Model of `StateManager.mark_failed`. -/
def mark_failed (st : SyncState) (doc_id : String) (error : String)
    (folder_name : String) (doc : Option Doc) (now : String) : SyncState :=
  let existing := dictGet? st.failed_documents doc_id
  let attempts := (match existing with
    | some r => r.attempts
    | none => 0) + 1
  let titleOpt := match doc with
    | some d => d.title
    | none => none
  let rec_ : FailedRecord :=
    { title := if pyTruthy titleOpt then titleOpt.getD "" else
        (match existing with
          | some r => r.title
          | none => "Unknown")
      folder_name := folder_name
      attempts := attempts
      last_error := error
      last_attempt := now }
  { st with
    failed_documents := dictInsert doc_id rec_ st.failed_documents
    stats :=
      { st.stats with
        total_errors := st.stats.total_errors + 1
        last_error := some now
        by_folder := bumpFolderStat st.stats.by_folder folder_name
          (fun p => (p.1, p.2 + 1)) } }

/-! ## Change detector (`SyncService._filter_new_documents`) -/

/-- Model of `SyncService._filter_new_documents`: keep documents with a
truthy id that are unseen or whose version marker changed. -/
def filter_new_documents (st : SyncState) (documents : List Doc) : List Doc :=
  match documents with
  | [] => []
  | doc :: rest =>
    let tail := filter_new_documents st rest
    if pyTruthy doc.id then
      let doc_id := doc.id.getD ""
      let updated_at := pyOr doc.updated_at doc.created_at
      if ¬ is_document_seen st doc_id then doc :: tail
      else if is_document_updated st doc_id updated_at then doc :: tail
      else tail
    else tail

/-- Selection policy as the specification words it: the document has an id,
and either the id is absent from the seen-index or its version marker
(`updated_at` falling back to `created_at`) differs from the marker
recorded at last successful sync. -/
def specSelected (st : SyncState) (d : Doc) : Bool :=
  pyTruthy d.id &&
    match dictGet? st.seen_documents (d.id.getD "") with
    | none => true
    | some r => r.last_updated ≠ pyOr d.updated_at d.created_at

/-! ## Webhook delivery (`webhook.py`, `WebhookSender.send`)

Each call to `client.post` either yields an HTTP response (just a status
code here) or raises a network-level `httpx.RequestError`; the outcome of
the i-th attempt is given by an oracle `att : Nat → Attempt`.
`response.raise_for_status()` raises `httpx.HTTPStatusError` exactly when
the status is not a 2xx success. -/

/-- Outcome of one `client.post` call. -/
inductive Attempt where
  | response (status : Nat)
  | requestError (msg : String)
deriving Repr, DecidableEq

/-- Result of `WebhookSender.send`: the returned response's status, or the
exception that propagates to the caller. -/
inductive SendResult where
  | success (status : Nat)
  | statusError (status : Nat)
  | reqError (msg : String)
  | runtimeError
deriving Repr, DecidableEq

/-- The error `send` would re-raise for a given attempt outcome. -/
def attemptError : Attempt → SendResult
  | .response s => .statusError s
  | .requestError m => .reqError m

/-- Loop body of `WebhookSender.send`: `idx` is the current attempt index,
`remaining` the attempts left out of `retry_attempts`, `lastError` the
saved last error.  Returns the result and the number of attempts made. -/
def sendLoop (att : Nat → Attempt) (idx remaining : Nat)
    (lastError : Option SendResult) : SendResult × Nat :=
  match remaining with
  | 0 =>
    -- all retries exhausted
    (match lastError with
      | some e => (e, 0)
      | none => (.runtimeError, 0))
  | r + 1 =>
    match att idx with
    | .response s =>
      if 200 ≤ s ∧ s < 300 then (.success s, 1)
      else if 400 ≤ s ∧ s < 500 ∧ s ≠ 429 then
        -- client error other than 429: raise immediately
        (.statusError s, 1)
      else
        let out := sendLoop att (idx + 1) r (some (.statusError s))
        (out.1, out.2 + 1)
    | .requestError m =>
      let out := sendLoop att (idx + 1) r (some (.reqError m))
      (out.1, out.2 + 1)

/-- Model of `WebhookSender.send` with `retry_attempts = n`: result and
number of attempts actually made. -/
def send (att : Nat → Attempt) (n : Nat) : SendResult × Nat :=
  sendLoop att 0 n none

/-- An attempt outcome the retry loop keeps retrying on, as the claim lists
them: HTTP 429, any 5xx response, or a network-level error. -/
def retryableOutcome : Attempt → Prop
  | .response s => s = 429 ∨ (500 ≤ s ∧ s < 600)
  | .requestError _ => True

instance : DecidablePred retryableOutcome := fun a =>
  match a with
  | .response _ => by unfold retryableOutcome; infer_instance
  | .requestError _ => by unfold retryableOutcome; infer_instance

/-! ## ProseMirror projection (`SyncService._extract_text`)

A ProseMirror node, restricted to the keys the converter reads:
`type`, `text`, `attrs.level`, `content` (each via `.get` with a default).
The mutable `lines` list threads through as an accumulator. -/

/-- ProseMirror node: `ty` models `node.get("type", "")` (via `none`),
`text` models `node.get("text", "")`, `level` models
`node.get("attrs", {}).get("level", 1)`, `content` models
`node.get("content", [])`. -/
inductive PMNode where
  | mk (ty : Option String) (text : Option String) (level : Option Nat)
       (content : List PMNode)

def PMNode.ty : PMNode → Option String
  | .mk t _ _ _ => t

def PMNode.text : PMNode → Option String
  | .mk _ tx _ _ => tx

def PMNode.level : PMNode → Option Nat
  | .mk _ _ lv _ => lv

def PMNode.content : PMNode → List PMNode
  | .mk _ _ _ c => c

/-- The text-node step: `lines[-1] += text` when an open line exists, else
`lines.append(pfx + text)`. -/
def appendText (lines : List String) (pfx text : String) : List String :=
  match lines.getLast? with
  | some last =>
    if last.endsWith "\n" then lines ++ [pfx ++ text]
    else lines.dropLast ++ [last ++ text]
  | none => lines ++ [pfx ++ text]

/-- A run of `level` hash marks followed by a space (`"#" * level + " "`). -/
def headingMarks (level : Nat) : String :=
  String.mk (List.replicate level '#') ++ " "

mutual

/-- Model of `SyncService._extract_text`: walk a node, returning the
updated `lines` accumulator. -/
def extract_text (node : PMNode) (lines : List String) (pfx : String) :
    List String :=
  match node with
  | .mk ty tx lv content =>
    let node_type := ty.getD ""
    if node_type = "text" then
      appendText lines pfx (tx.getD "")
    else
      let pfx := if node_type = "heading" then headingMarks (lv.getD 1)
        else pfx
      if node_type = "bulletList" then
        extractChildren content lines "- "
      else if node_type = "orderedList" then
        extractChildrenNumbered content 1 lines
      else if node_type = "paragraph" ∨ node_type = "heading" then
        let lines := if lines ≠ [] then lines ++ [""] else lines
        extractChildren content lines pfx
      else
        extractChildren content lines pfx
termination_by sizeOf node

/-- Sequential walk over children (`for child in node.get("content", [])`). -/
def extractChildren (nodes : List PMNode) (lines : List String)
    (pfx : String) : List String :=
  match nodes with
  | [] => lines
  | n :: ns => extractChildren ns (extract_text n lines pfx) pfx
termination_by sizeOf nodes

/-- Walk over `orderedList` children with 1-based numbering
(`enumerate(..., 1)`), child `i` getting the line marker `"{i}. "`. -/
def extractChildrenNumbered (nodes : List PMNode) (i : Nat)
    (lines : List String) : List String :=
  match nodes with
  | [] => lines
  | n :: ns =>
    extractChildrenNumbered ns (i + 1)
      (extract_text n lines (toString i ++ ". "))
termination_by sizeOf nodes

end

/-- Model of `SyncService._prosemirror_to_text`: run the walk on an empty
accumulator and join the lines (falsy content yields `""`). -/
def prosemirror_to_text (content : Option PMNode) : String :=
  match content with
  | none => ""
  | some node => String.intercalate "\n" (extract_text node [] "")

/-! ## Transcript formatting (`SyncService._build_payload`, lines 323-329)

The transcript sub-expression of `_build_payload`: `"Me: {text}"` when the
segment's `source` is `"microphone"`, else `"Them: {text}"`, joined with
newlines; a falsy transcript (absent, `None`, or the empty list) leaves the
empty string. -/

/-- One transcript segment as the formatter reads it. -/
structure TranscriptSeg where
  source : Option String
  text : Option String
deriving Repr, DecidableEq

/-- Rendering of one segment inside the join. -/
def renderSegment (t : TranscriptSeg) : String :=
  (if t.source = some "microphone" then "Me" else "Them") ++ ": " ++
    t.text.getD ""

/-- Model of the transcript formatting in `_build_payload`. -/
def format_transcript (transcript : Option (List TranscriptSeg)) : String :=
  match transcript with
  | none => ""
  | some segs =>
    if segs.isEmpty then ""
    else String.intercalate "\n" (segs.map renderSegment)

/-! ## Orchestration (`SyncService.sync_once` / `_sync_documents`)

Webhook delivery inside `_process_document` is abstracted by an oracle
`deliver : Doc → Option String`: `none` means `webhook.send` returned and
the document is marked synced; `some err` means an exception with message
`err` propagated and the document is marked failed.  `state.save()` is
modelled by its in-memory effect (setting `last_sync := now`) plus a
boolean reporting whether a state-file write happened. -/

/-- One row of a folder summary's `documents` list. -/
structure DocEntry where
  id : String
  title : String
  action : String
deriving Repr, DecidableEq

/-- Per-folder summary built by `_sync_documents`. -/
structure FolderSummary where
  total : Nat
  new : Nat
  synced : Nat
  failed : Nat
  documents : List DocEntry
deriving Repr, DecidableEq

/-- Cycle summary built by `sync_once`. -/
structure CycleSummary where
  folders_checked : Nat
  documents_found : Nat
  documents_new : Nat
  documents_synced : Nat
  documents_failed : Nat
  by_folder : List (String × FolderSummary)
deriving Repr, DecidableEq

/-- A remote folder as `sync_once` reads it: its `title` and its embedded
`documents` list (`folder.get("documents", [])`). -/
structure Folder where
  title : String
  documents : List Doc
deriving Repr, DecidableEq

/-- Model of `SyncService._process_document`: send the webhook, then mark
the document synced or failed. -/
def process_document (st : SyncState) (doc : Doc) (folder_name : String)
    (deliver : Doc → Option String) (now : String) : SyncState × Bool :=
  let doc_id := doc.id.getD ""
  match deliver doc with
  | none => (mark_synced st doc_id doc folder_name now, true)
  | some err => (mark_failed st doc_id err folder_name (some doc) now, false)

/-- The per-document loop of `_sync_documents` over the truncated batch. -/
def processBatch (st : SyncState) (batch : List Doc) (folder_label : String)
    (dry_run : Bool) (deliver : Doc → Option String) (now : String)
    (acc : FolderSummary) : SyncState × FolderSummary :=
  match batch with
  | [] => (st, acc)
  | doc :: rest =>
    if dry_run then
      let acc := { acc with
        documents := acc.documents ++
          [⟨doc.id.getD "", doc.title.getD "Untitled", "would_sync"⟩]
        synced := acc.synced + 1 }
      processBatch st rest folder_label dry_run deliver now acc
    else
      let (st, success) := process_document st doc folder_label deliver now
      let acc := { acc with
        documents := acc.documents ++
          [⟨doc.id.getD "", doc.title.getD "Untitled",
            if success then "synced" else "failed"⟩]
        synced := if success then acc.synced + 1 else acc.synced
        failed := if success then acc.failed else acc.failed + 1 }
      processBatch st rest folder_label dry_run deliver now acc

/-- Model of `SyncService._sync_documents`. -/
def sync_documents (st : SyncState) (folder_label : String)
    (documents : List Doc) (batch_size : Nat) (dry_run : Bool)
    (deliver : Doc → Option String) (now : String) :
    SyncState × FolderSummary :=
  let new_docs := filter_new_documents st documents
  let acc : FolderSummary :=
    { total := documents.length
      new := new_docs.length
      synced := 0
      failed := 0
      documents := [] }
  processBatch st (new_docs.take batch_size) folder_label dry_run deliver now
    acc

/-- The empty per-folder summary recorded for an unmatched folder name. -/
def emptyFolderSummary : FolderSummary :=
  { total := 0, new := 0, synced := 0, failed := 0, documents := [] }

/-- Resolution of a configured name through the `folder_lookup` dict
comprehension (`{f["title"]: f for f in all_folders}` then `.get(name)`):
the last folder with a matching title wins. -/
def folderLookup (all_folders : List Folder) (name : String) : Option Folder :=
  all_folders.foldl (fun acc f => if f.title = name then some f else acc) none

/-- The per-folder step of `sync_once`'s main loop. -/
def syncOnceStep (all_folders : List Folder) (batch_size : Nat)
    (dry_run : Bool) (deliver : Doc → Option String) (now : String)
    (acc : SyncState × CycleSummary) (folder_name : String) :
    SyncState × CycleSummary :=
  let (st, summary) := acc
  match folderLookup all_folders folder_name with
  | none =>
    (st, { summary with
      by_folder := dictInsert folder_name emptyFolderSummary
        summary.by_folder })
  | some folder =>
    let documents := folder.documents
    let (st', fsum) :=
      sync_documents st folder_name documents batch_size dry_run deliver now
    (st', { summary with
      documents_found := summary.documents_found + documents.length
      documents_new := summary.documents_new + fsum.new
      documents_synced := summary.documents_synced + fsum.synced
      documents_failed := summary.documents_failed + fsum.failed
      by_folder := dictInsert folder_name fsum summary.by_folder })

/-- The cycle summary as `sync_once` initialises it. -/
def initCycleSummary (configured_folders : List String) : CycleSummary :=
  { folders_checked := configured_folders.length
    documents_found := 0
    documents_new := 0
    documents_synced := 0
    documents_failed := 0
    by_folder := [] }

/-- Model of `SyncService.sync_once`.  `foldersResult` is the outcome of
`granola.get_folders()`; an exception there propagates (the `except` block
re-raises).  On success the returned triple is the final state, whether a
state-file write happened (`save()` is skipped under `dry_run`), and the
cycle summary. -/
def sync_once (foldersResult : Except String (List Folder))
    (configured_folders : List String) (st : SyncState) (dry_run : Bool)
    (batch_size : Nat) (deliver : Doc → Option String) (now : String) :
    Except String (SyncState × Bool × CycleSummary) :=
  match foldersResult with
  | .error e => .error e
  | .ok all_folders =>
    let (st', summary) := configured_folders.foldl
      (syncOnceStep all_folders batch_size dry_run deliver now)
      (st, initCycleSummary configured_folders)
    if dry_run then .ok (st', false, summary)
    else .ok ({ st' with last_sync := some now }, true, summary)

/-! ## HMAC signing (`webhook.py`, `sign_payload`)

`sign_payload` serialises the payload with
`json.dumps(payload, separators=(",", ":"))`, UTF-8-encodes it, and signs
with `hmac.new(secret, payload_bytes, hashlib.sha256).hexdigest()`.  The
library primitives (SHA-256 per FIPS 180-4, HMAC per RFC 2104 with a
64-byte block, CPython's compact JSON encoder with `ensure_ascii`) are
embedded below over byte lists (`Nat` values below 256). -/

/-- Right rotation of a 32-bit word. -/
def rotr32 (n x : Nat) : Nat :=
  ((x >>> n) ||| (x <<< (32 - n))) % 4294967296

/-- Addition modulo 2^32. -/
def add32 (a b : Nat) : Nat := (a + b) % 4294967296

/-- The SHA-256 round constants. -/
def sha256K : List Nat :=
  [1116352408, 1899447441, 3049323471, 3921009573, 961987163,
   1508970993, 2453635748, 2870763221, 3624381080, 310598401,
   607225278, 1426881987, 1925078388, 2162078206, 2614888103,
   3248222580, 3835390401, 4022224774, 264347078, 604807628,
   770255983, 1249150122, 1555081692, 1996064986, 2554220882,
   2821834349, 2952996808, 3210313671, 3336571891, 3584528711,
   113926993, 338241895, 666307205, 773529912, 1294757372,
   1396182291, 1695183700, 1986661051, 2177026350, 2456956037,
   2730485921, 2820302411, 3259730800, 3345764771, 3516065817,
   3600352804, 4094571909, 275423344, 430227734, 506948616,
   659060556, 883997877, 958139571, 1322822218, 1537002063,
   1747873779, 1955562222, 2024104815, 2227730452, 2361852424,
   2428436474, 2756734187, 3204031479, 3329325298]

/-- Working state of the compression function. -/
structure Sha256State where
  a : Nat
  b : Nat
  c : Nat
  d : Nat
  e : Nat
  f : Nat
  g : Nat
  h : Nat
deriving Repr, DecidableEq

/-- The SHA-256 initial hash value. -/
def sha256Init : Sha256State :=
  ⟨1779033703, 3144134277, 1013904242, 2773480762,
   1359893119, 2600822924, 528734635, 1541459225⟩

def smallSigma0 (x : Nat) : Nat := (rotr32 7 x) ^^^ (rotr32 18 x) ^^^ (x >>> 3)

def smallSigma1 (x : Nat) : Nat := (rotr32 17 x) ^^^ (rotr32 19 x) ^^^ (x >>> 10)

def bigSigma0 (x : Nat) : Nat := (rotr32 2 x) ^^^ (rotr32 13 x) ^^^ (rotr32 22 x)

def bigSigma1 (x : Nat) : Nat := (rotr32 6 x) ^^^ (rotr32 11 x) ^^^ (rotr32 25 x)

def chVal (x y z : Nat) : Nat := (x &&& y) ^^^ ((x ^^^ 0xffffffff) &&& z)

def majVal (x y z : Nat) : Nat := (x &&& y) ^^^ (x &&& z) ^^^ (y &&& z)

/-- Big-endian bytes of a 64-bit length value. -/
def lenBytes64 (n : Nat) : List Nat :=
  [(n >>> 56) % 256, (n >>> 48) % 256, (n >>> 40) % 256, (n >>> 32) % 256,
   (n >>> 24) % 256, (n >>> 16) % 256, (n >>> 8) % 256, n % 256]

/-- SHA-256 message padding: a 0x80 byte, zeros to 56 mod 64, then the
bit length as a 64-bit big-endian value. -/
def sha256Pad (msg : List Nat) : List Nat :=
  let l := msg.length
  msg ++ [0x80] ++ List.replicate ((119 - l % 64) % 64) 0 ++ lenBytes64 (l * 8)

/-- Group a byte list into big-endian 32-bit words. -/
def bytesToWords : List Nat → List Nat
  | b0 :: b1 :: b2 :: b3 :: rest =>
    ((((((b0 <<< 8) ||| b1) <<< 8) ||| b2) <<< 8) ||| b3) :: bytesToWords rest
  | _ => []

/-- Split a byte list into 64-byte chunks. -/
def chunks64 (l : List Nat) : List (List Nat) :=
  match l with
  | [] => []
  | x :: xs => (x :: xs).take 64 :: chunks64 ((x :: xs).drop 64)
termination_by l.length
decreasing_by simp; omega

/-- Extend the 16 words of a chunk to the 64-entry message schedule. -/
def extendW (w : List Nat) : List Nat :=
  (List.range 48).foldl
    (fun w i =>
      w ++ [add32 (add32 (w.getD i 0) (smallSigma0 (w.getD (i + 1) 0)))
        (add32 (w.getD (i + 9) 0) (smallSigma1 (w.getD (i + 14) 0)))])
    w

/-- One round of the SHA-256 compression function. -/
def sha256Round (s : Sha256State) (kw : Nat × Nat) : Sha256State :=
  let t1 := add32 s.h (add32 (bigSigma1 s.e)
    (add32 (chVal s.e s.f s.g) (add32 kw.1 kw.2)))
  let t2 := add32 (bigSigma0 s.a) (majVal s.a s.b s.c)
  ⟨add32 t1 t2, s.a, s.b, s.c, add32 s.d t1, s.e, s.f, s.g⟩

/-- Process one 64-byte chunk. -/
def sha256Chunk (s : Sha256State) (chunk : List Nat) : Sha256State :=
  let w := extendW (bytesToWords chunk)
  let t := (sha256K.zip w).foldl sha256Round s
  ⟨add32 s.a t.a, add32 s.b t.b, add32 s.c t.c, add32 s.d t.d,
   add32 s.e t.e, add32 s.f t.f, add32 s.g t.g, add32 s.h t.h⟩

/-- Big-endian bytes of one 32-bit word. -/
def wordBytes (w : Nat) : List Nat :=
  [(w >>> 24) % 256, (w >>> 16) % 256, (w >>> 8) % 256, w % 256]

/-- SHA-256 digest (32 bytes) of a byte list. -/
def sha256 (msg : List Nat) : List Nat :=
  let s := (chunks64 (sha256Pad msg)).foldl sha256Chunk sha256Init
  wordBytes s.a ++ wordBytes s.b ++ wordBytes s.c ++ wordBytes s.d ++
    wordBytes s.e ++ wordBytes s.f ++ wordBytes s.g ++ wordBytes s.h

/-- HMAC-SHA256 per RFC 2104 (`hmac.new(key, msg, hashlib.sha256)`). -/
def hmacSha256 (key msg : List Nat) : List Nat :=
  let key := if 64 < key.length then sha256 key else key
  let key := key ++ List.replicate (64 - key.length) 0
  let ipadKey := key.map (fun b => b ^^^ 0x36)
  let opadKey := key.map (fun b => b ^^^ 0x5c)
  sha256 (opadKey ++ sha256 (ipadKey ++ msg))

/-- Lower-case hex digit. -/
def hexDigitChar (n : Nat) : Char :=
  if n < 10 then Char.ofNat (48 + n) else Char.ofNat (87 + n)

/-- Two hex digits of one byte. -/
def byteHex (b : Nat) : String :=
  String.mk [hexDigitChar (b / 16), hexDigitChar (b % 16)]

/-- Hex encoding of a byte list (`.hexdigest()`). -/
def bytesToHex : List Nat → String
  | [] => ""
  | b :: bs => byteHex b ++ bytesToHex bs

/-- UTF-8 encoding of a code point. -/
def utf8EncodeCp (c : Nat) : List Nat :=
  if c < 0x80 then [c]
  else if c < 0x800 then
    [0xC0 ||| (c >>> 6), 0x80 ||| (c &&& 0x3F)]
  else if c < 0x10000 then
    [0xE0 ||| (c >>> 12), 0x80 ||| ((c >>> 6) &&& 0x3F), 0x80 ||| (c &&& 0x3F)]
  else
    [0xF0 ||| (c >>> 18), 0x80 ||| ((c >>> 12) &&& 0x3F),
     0x80 ||| ((c >>> 6) &&& 0x3F), 0x80 ||| (c &&& 0x3F)]

/-- UTF-8 bytes of a string (`.encode("utf-8")`). -/
def strUtf8 (s : String) : List Nat :=
  s.data.flatMap (fun c => utf8EncodeCp c.toNat)

/-! ## Compact JSON (`json.dumps(payload, separators=(",", ":"))`) -/

/-- A JSON value; object fields keep Python dict insertion order. -/
inductive JValue where
  | null
  | bool (b : Bool)
  | num (n : Int)
  | str (s : String)
  | arr (elems : List JValue)
  | obj (fields : List (String × JValue))

/-- Four hex digits of a 16-bit value. -/
def hex4 (n : Nat) : String :=
  String.mk [hexDigitChar ((n >>> 12) &&& 15), hexDigitChar ((n >>> 8) &&& 15),
    hexDigitChar ((n >>> 4) &&& 15), hexDigitChar (n &&& 15)]

/-- CPython's `ensure_ascii` escaping of one character inside a JSON
string literal. -/
def jsonEscapeChar (c : Char) : String :=
  if c = '"' then "\\\""
  else if c = '\\' then "\\\\"
  else if c = '\n' then "\\n"
  else if c = '\r' then "\\r"
  else if c = '\t' then "\\t"
  else if c.toNat = 8 then "\\b"
  else if c.toNat = 12 then "\\f"
  else if c.toNat < 0x20 ∨ 0x7e < c.toNat then
    if c.toNat < 0x10000 then "\\u" ++ hex4 c.toNat
    else
      let v := c.toNat - 0x10000
      "\\u" ++ hex4 (0xD800 + (v >>> 10)) ++ "\\u" ++ hex4 (0xDC00 + (v &&& 0x3FF))
  else String.singleton c

/-- JSON string literal. -/
def jsonString (s : String) : String :=
  "\"" ++ String.join (s.data.map jsonEscapeChar) ++ "\""

mutual

/-- Compact JSON serialisation: separators `","` and `":"`, no other
characters between tokens. -/
def jsonDumps : JValue → String
  | .null => "null"
  | .bool true => "true"
  | .bool false => "false"
  | .num n => toString n
  | .str s => jsonString s
  | .arr xs => "[" ++ String.intercalate "," (jsonDumpsList xs) ++ "]"
  | .obj fs =>
    "\x7b" ++ String.intercalate "," (jsonDumpsFields fs) ++ "\x7d"

def jsonDumpsList : List JValue → List String
  | [] => []
  | v :: vs => jsonDumps v :: jsonDumpsList vs

def jsonDumpsFields : List (String × JValue) → List String
  | [] => []
  | (k, v) :: fs => (jsonString k ++ ":" ++ jsonDumps v) :: jsonDumpsFields fs

end

/-- Model of `sign_payload` in `webhook.py`. -/
def sign_payload (payload : JValue) (secret : String) : String :=
  let payload_bytes := strUtf8 (jsonDumps payload)
  let signature := bytesToHex (hmacSha256 (strUtf8 secret) payload_bytes)
  "sha256=" ++ signature

/-! ## Theorems -/

/-! ### Signing (claim C8) -/

theorem sha256_length (msg : List Nat) : (sha256 msg).length = 32 := by
  simp [sha256, wordBytes]

theorem hmacSha256_length (key msg : List Nat) :
    (hmacSha256 key msg).length = 32 := by
  simp [hmacSha256, sha256_length]

theorem bytesToHex_length (bs : List Nat) :
    (bytesToHex bs).length = 2 * bs.length := by
  induction bs with
  | nil => rfl
  | cons b l ih =>
    simp [bytesToHex, String.length_append, byteHex, ih]
    omega

/-- C8: for every payload and secret, `sign_payload` returns `"sha256="`
followed by the hex HMAC-SHA256, under the secret, of the compact JSON
serialisation of the payload (so the whole string has the 7 + 64
characters of the marker plus a 32-byte digest in hex), and two calls on
an identical payload and secret yield an identical signature string. -/
theorem sign_payload_spec (p : JValue) (s : String) :
    sign_payload p s =
      "sha256=" ++ bytesToHex (hmacSha256 (strUtf8 s) (strUtf8 (jsonDumps p)))
    ∧ (sign_payload p s).length = 71
    ∧ ∀ p' s', p' = p → s' = s → sign_payload p' s' = sign_payload p s := by
  refine ⟨rfl, ?_, ?_⟩
  · simp [sign_payload, String.length_append, bytesToHex_length,
      hmacSha256_length]
    decide
  · intro p' s' hp hs
    rw [hp, hs]

/-- Witness for C8 at the concrete payload `{"source": "Granola"}` and
secret `"secret"`. -/
theorem sign_payload_spec_witness :
    sign_payload (.obj [("source", .str "Granola")]) "secret" =
      "sha256=" ++ bytesToHex (hmacSha256 (strUtf8 "secret")
        (strUtf8 (jsonDumps (.obj [("source", .str "Granola")])))) ∧
    sign_payload (.obj [("source", .str "Granola")]) "secret" =
      sign_payload (.obj [("source", .str "Granola")]) "secret" :=
  ⟨(sign_payload_spec (.obj [("source", .str "Granola")]) "secret").1,
   (sign_payload_spec (.obj [("source", .str "Granola")]) "secret").2.2
     _ _ rfl rfl⟩

/-! ### State bookkeeping (claim C3) -/

/-- C3: `mark_synced` installs a seen-record for the id and removes any
failed-record with the same id; `mark_failed` leaves `seen_documents`
unchanged; consequently after `mark_failed` then `mark_synced` on the same
id, the id is absent from `failed_documents` and present in
`seen_documents`. -/
theorem mark_synced_mark_failed_spec (st : SyncState) (doc_id : String)
    (doc : Doc) (odoc : Option Doc) (err folder folder' now now' : String) :
    is_document_seen (mark_synced st doc_id doc folder now) doc_id = true
    ∧ dictGet? (mark_synced st doc_id doc folder now).failed_documents
        doc_id = none
    ∧ (mark_failed st doc_id err folder' odoc now').seen_documents =
        st.seen_documents
    ∧ dictGet? (mark_synced (mark_failed st doc_id err folder' odoc now')
        doc_id doc folder now).failed_documents doc_id = none
    ∧ is_document_seen (mark_synced (mark_failed st doc_id err folder' odoc
        now') doc_id doc folder now) doc_id = true := by
  refine ⟨?_, ?_, rfl, ?_, ?_⟩ <;>
    simp [mark_synced, mark_failed, is_document_seen,
      dictGet?_insert_self, dictGet?_erase_self]

/-! ### Transcript formatting (claim C9) -/

/-- C9: the transcript text is one line per segment in input order,
`"Me: {text}"` when the segment's speaker is the self/microphone role and
`"Them: {text}"` otherwise, joined with line breaks; an absent transcript
yields the empty string. -/
theorem transcript_formatting_spec :
    (∀ segs : List TranscriptSeg,
      format_transcript (some segs) =
        String.intercalate "\n" (segs.map (fun t =>
          (if t.source = some "microphone" then "Me" else "Them") ++ ": " ++
            t.text.getD "")))
    ∧ format_transcript none = "" := by
  constructor
  · intro segs
    cases segs with
    | nil => rfl
    | cons a l => rfl
  · rfl

/-! ### Bullet-list projection (claim C5) -/

/-- The rich-text tree of the claim: a `bulletList` with two
`listItem → paragraph → text` children `"Item 1"` and `"Item 2"`. -/
def bulletExample : PMNode := .mk (some "bulletList") none none
  [ .mk (some "listItem") none none
      [ .mk (some "paragraph") none none
          [ .mk (some "text") (some "Item 1") none [] ] ]
  , .mk (some "listItem") none none
      [ .mk (some "paragraph") none none
          [ .mk (some "text") (some "Item 2") none [] ] ] ]

theorem bulletExample_lines :
    extract_text bulletExample [] "" = ["- Item 1", "Item 2"] := by
  simp [bulletExample, extract_text, extractChildren, appendText]
  decide

/-- A line carries the bullet marker exactly when its first two characters
are `'-'` and `' '`. -/
def hasBulletMarker (l : String) : Bool := l.data.take 2 = ['-', ' ']

/-- C5 counterexample: on the claim's own tree the projector emits the
lines `"- Item 1"` and `"Item 2"`; the second text is present as a line
but is not preceded by `"- "`, so not every emitted line carries the
marker, contradicting the claim. -/
theorem bulletList_projection_cex :
    extract_text bulletExample [] "" = ["- Item 1", "Item 2"]
    ∧ ¬ (∀ l ∈ extract_text bulletExample [] "", hasBulletMarker l = true) := by
  refine ⟨bulletExample_lines, ?_⟩
  rw [bulletExample_lines]
  decide

/-- C5 amended: the projector's output contains both texts as lines, but
only the first is preceded by `"- "`: the second list item's paragraph
opens a fresh empty line and its text is appended to that line without
the pending marker. -/
theorem bulletList_projection_amended :
    prosemirror_to_text (some bulletExample) = "- Item 1\nItem 2"
    ∧ "- Item 1" ∈ extract_text bulletExample [] ""
    ∧ "Item 2" ∈ extract_text bulletExample [] ""
    ∧ hasBulletMarker "- Item 1" = true
    ∧ hasBulletMarker "Item 2" = false := by
  refine ⟨?_, ?_, ?_, by decide, by decide⟩
  · simp [prosemirror_to_text, bulletExample_lines]
    rfl
  · rw [bulletExample_lines]
    decide
  · rw [bulletExample_lines]
    decide

/-! ### Webhook retry policy (claim C2) -/

theorem sendLoop_step_retry_response (att : Nat → Attempt) (idx r : Nat)
    (le : Option SendResult) (s : Nat) (hatt : att idx = .response s)
    (h1 : ¬ (200 ≤ s ∧ s < 300)) (h2 : ¬ (400 ≤ s ∧ s < 500 ∧ s ≠ 429)) :
    sendLoop att idx (r + 1) le =
      ((sendLoop att (idx + 1) r (some (.statusError s))).1,
       (sendLoop att (idx + 1) r (some (.statusError s))).2 + 1) := by
  conv_lhs => simp only [sendLoop]
  simp [hatt, h1, h2]

theorem sendLoop_step_reqError (att : Nat → Attempt) (idx r : Nat)
    (le : Option SendResult) (m : String) (hatt : att idx = .requestError m) :
    sendLoop att idx (r + 1) le =
      ((sendLoop att (idx + 1) r (some (.reqError m))).1,
       (sendLoop att (idx + 1) r (some (.reqError m))).2 + 1) := by
  conv_lhs => simp only [sendLoop]
  simp [hatt]

theorem sendLoop_exhaust (att : Nat → Attempt) :
    ∀ (r idx : Nat) (le : Option SendResult), 0 < r →
      (∀ j, idx ≤ j → j < idx + r → retryableOutcome (att j)) →
      sendLoop att idx r le = (attemptError (att (idx + r - 1)), r) := by
  intro r
  induction r with
  | zero => intro idx le h; omega
  | succ r ih =>
    intro idx le _ hall
    have hidx : retryableOutcome (att idx) := hall idx (Nat.le_refl idx) (by omega)
    cases hatt : att idx with
    | response s =>
      rw [hatt] at hidx
      unfold retryableOutcome at hidx
      have h1 : ¬ (200 ≤ s ∧ s < 300) := by omega
      have h2 : ¬ (400 ≤ s ∧ s < 500 ∧ s ≠ 429) := by omega
      rw [sendLoop_step_retry_response att idx r le s hatt h1 h2]
      cases r with
      | zero =>
        simp [sendLoop, attemptError, hatt]
      | succ r' =>
        have hrec := ih (idx + 1) (some (.statusError s)) (by omega)
          (fun j hj1 hj2 => hall j (by omega) (by omega))
        have hix : idx + 1 + (r' + 1) - 1 = idx + (r' + 1 + 1) - 1 := by omega
        rw [hrec, hix]
    | requestError m =>
      rw [sendLoop_step_reqError att idx r le m hatt]
      cases r with
      | zero =>
        simp [sendLoop, attemptError, hatt]
      | succ r' =>
        have hrec := ih (idx + 1) (some (.reqError m)) (by omega)
          (fun j hj1 hj2 => hall j (by omega) (by omega))
        have hix : idx + 1 + (r' + 1) - 1 = idx + (r' + 1 + 1) - 1 := by omega
        rw [hrec, hix]

/-- C2 amended: with a retry limit of at least 1, a delivery answered with
a 4xx status other than 429 is attempted exactly once and the error
propagates; with a limit of at least 2, a delivery answered 500 then 200
is attempted exactly twice and succeeds; with a limit of at least 1, a
delivery answered 429, 5xx, or a network-level error on every attempt is
attempted exactly the limit's number of times and the last error is
raised; with a limit of 0 no attempt is made and a generic runtime error
is raised instead of a delivery error. -/
theorem webhook_retry_policy :
    (∀ (att : Nat → Attempt) (n s : Nat), 1 ≤ n → att 0 = .response s →
      400 ≤ s → s < 500 → s ≠ 429 → send att n = (.statusError s, 1))
    ∧ (∀ (att : Nat → Attempt) (n : Nat), 2 ≤ n → att 0 = .response 500 →
      att 1 = .response 200 → send att n = (.success 200, 2))
    ∧ (∀ (att : Nat → Attempt) (n : Nat), 1 ≤ n →
      (∀ i, i < n → retryableOutcome (att i)) →
      send att n = (attemptError (att (n - 1)), n))
    ∧ (∀ att : Nat → Attempt, send att 0 = (.runtimeError, 0)) := by
  refine ⟨?_, ?_, ?_, fun att => rfl⟩
  · intro att n s hn h0 h4a h4b h429
    obtain ⟨m, rfl⟩ : ∃ m, n = m + 1 := ⟨n - 1, by omega⟩
    have hno : ¬ (200 ≤ s ∧ s < 300) := by omega
    have hyes : 400 ≤ s ∧ s < 500 ∧ s ≠ 429 := ⟨h4a, h4b, h429⟩
    simp [send, sendLoop, h0, hno, hyes]
  · intro att n h2 h0 h1
    obtain ⟨m, rfl⟩ : ∃ m, n = m + 2 := ⟨n - 2, by omega⟩
    simp [send, sendLoop, h0, h1]
  · intro att n hn hall
    have h := sendLoop_exhaust att n 0 none hn (fun j hj1 hj2 => hall j (by omega))
    simpa [send] using h

/-- Attempt oracle whose first response is HTTP 500 and whose later
responses are HTTP 200. -/
def att500then200 : Nat → Attempt :=
  fun i => if i = 0 then .response 500 else .response 200

/-- C2 counterexample: the claim quantifies over every configured retry
limit, but with limit 1 a delivery answered 500 then 200 is attempted
only once and reports the 500 error rather than being attempted twice
with success. -/
theorem webhook_retry_policy_cex :
    send att500then200 1 = (.statusError 500, 1) := by decide

/-- Witness for C2 at the default retry limit 3: a 400 response is
attempted once, 500-then-200 twice with success, persistent network
errors three times, and limit 0 makes no attempt. -/
theorem webhook_retry_policy_witness :
    send (fun _ => .response 400) 3 = (.statusError 400, 1)
    ∧ send att500then200 3 = (.success 200, 2)
    ∧ send (fun _ => .requestError "boom") 3 = (.reqError "boom", 3)
    ∧ send (fun _ => .response 400) 0 = (.runtimeError, 0) := by
  refine ⟨webhook_retry_policy.1 _ 3 400 (by omega) rfl (by omega) (by omega)
      (by omega),
    webhook_retry_policy.2.1 att500then200 3 (by omega) rfl rfl, ?_,
    webhook_retry_policy.2.2.2 _⟩
  have h := webhook_retry_policy.2.2.1 (fun _ => .requestError "boom") 3
    (by omega) (fun i _ => by unfold retryableOutcome; trivial)
  simpa [attemptError] using h

/-! ### Change detection (claim C1) -/

theorem filter_new_documents_eq_filter (st : SyncState) (docs : List Doc) :
    filter_new_documents st docs = docs.filter (specSelected st) := by
  induction docs with
  | nil => rfl
  | cons d rest ih =>
    by_cases hid : pyTruthy d.id
    · cases hlk : dictGet? st.seen_documents (d.id.getD "") with
      | none =>
        simp [filter_new_documents, List.filter_cons, specSelected,
          is_document_seen, is_document_updated, hid, hlk, ih]
      | some r =>
        by_cases hupd : r.last_updated = pyOr d.updated_at d.created_at
        · simp [filter_new_documents, List.filter_cons, specSelected,
            is_document_seen, is_document_updated, hid, hlk, hupd, ih]
        · simp [filter_new_documents, List.filter_cons, specSelected,
            is_document_seen, is_document_updated, hid, hlk, hupd, ih]
    · simp [filter_new_documents, List.filter_cons, specSelected, hid, ih]

/-- C1: the change detector returns exactly the order-preserving sub-list
of documents selected by the specification's policy (id present, and
unseen or version marker changed); a document without an id is never
returned, and a document previously synced with the same marker is never
returned. -/
theorem change_detector_spec (st : SyncState) (docs : List Doc) :
    filter_new_documents st docs = docs.filter (specSelected st)
    ∧ (∀ d : Doc, pyTruthy d.id = false →
        d ∉ filter_new_documents st docs)
    ∧ (∀ (d : Doc) (i : String) (r : SeenRecord), d.id = some i →
        dictGet? st.seen_documents i = some r →
        r.last_updated = pyOr d.updated_at d.created_at →
        d ∉ filter_new_documents st docs) := by
  refine ⟨filter_new_documents_eq_filter st docs, ?_, ?_⟩
  · intro d hfalse hmem
    rw [filter_new_documents_eq_filter] at hmem
    have := List.of_mem_filter hmem
    simp [specSelected, hfalse] at this
  · intro d i r hdi hlk hmark hmem
    rw [filter_new_documents_eq_filter] at hmem
    have hsel := List.of_mem_filter hmem
    by_cases hi : i = ""
    · subst hi
      simp [specSelected, hdi, pyTruthy] at hsel
    · rw [specSelected] at hsel
      rw [hdi] at hsel
      simp [pyTruthy, hi, hlk, hmark] at hsel

/-- A seen-record carrying version marker "v1". -/
def seenRecV1 : SeenRecord :=
  ⟨"A", "Folder", "t0", some "v1", "t0", "success"⟩

/-- A sample state that has already synced document "a" at marker "v1". -/
def stSample : SyncState :=
  ⟨none, [("a", seenRecV1)], [], ⟨0, 0, none, []⟩⟩

/-- A document re-presented with the unchanged marker "v1". -/
def docA : Doc := ⟨some "a", some "A", some "c1", some "v1"⟩

/-- A document never seen before. -/
def docB : Doc := ⟨some "b", some "B", some "c2", none⟩

/-- A document with a missing id. -/
def docN : Doc := ⟨none, some "N", none, none⟩

/-- Witness for C1 on a concrete state and document list: the filter
equation holds, the id-less document is excluded, and the already-synced
unchanged document is not reselected. -/
theorem change_detector_spec_witness :
    filter_new_documents stSample [docA, docB, docN] =
      [docA, docB, docN].filter (specSelected stSample)
    ∧ docN ∉ filter_new_documents stSample [docA, docB, docN]
    ∧ docA ∉ filter_new_documents stSample [docA, docB, docN] :=
  ⟨(change_detector_spec stSample [docA, docB, docN]).1,
   (change_detector_spec stSample [docA, docB, docN]).2.1 docN rfl,
   (change_detector_spec stSample [docA, docB, docN]).2.2 docA "a" seenRecV1
     rfl rfl (by decide)⟩

/-! ### Dry run (claim C6) -/

theorem processBatch_dry_state (st : SyncState) (batch : List Doc)
    (fl : String) (deliver : Doc → Option String) (now : String)
    (acc : FolderSummary) :
    (processBatch st batch fl true deliver now acc).1 = st := by
  induction batch generalizing acc with
  | nil => rfl
  | cons d rest ih => simp [processBatch, ih]

theorem sync_documents_dry_state (st : SyncState) (fl : String)
    (docs : List Doc) (bs : Nat) (deliver : Doc → Option String)
    (now : String) :
    (sync_documents st fl docs bs true deliver now).1 = st := by
  simp [sync_documents, processBatch_dry_state]

theorem syncOnceStep_dry_state (fs : List Folder) (bs : Nat)
    (deliver : Doc → Option String) (now : String) (st : SyncState)
    (sum : CycleSummary) (name : String) :
    (syncOnceStep fs bs true deliver now (st, sum) name).1 = st := by
  cases hlk : folderLookup fs name with
  | none => simp [syncOnceStep, hlk]
  | some f => simp [syncOnceStep, hlk, sync_documents_dry_state]

theorem syncOnce_foldl_dry_state (fs : List Folder) (bs : Nat)
    (deliver : Doc → Option String) (now : String) :
    ∀ (cfg : List String) (st : SyncState) (sum : CycleSummary),
      (cfg.foldl (syncOnceStep fs bs true deliver now) (st, sum)).1 = st := by
  intro cfg
  induction cfg with
  | nil => intro st sum; rfl
  | cons name rest ih =>
    intro st sum
    rw [List.foldl_cons]
    rcases hres : syncOnceStep fs bs true deliver now (st, sum) name
      with ⟨st1, sum1⟩
    have h := syncOnceStep_dry_state fs bs deliver now st sum name
    rw [hres] at h
    simp at h
    rw [h]
    exact ih st sum1

/-- C6: a dry-run cycle leaves the state exactly as it was and skips the
state-file write; in particular every document the cycle reports leaves
`is_document_seen` false when it was false before the cycle. -/
theorem dry_run_no_side_effects (fs : List Folder) (cfg : List String)
    (st : SyncState) (bs : Nat) (deliver : Doc → Option String)
    (now : String) :
    ∀ (st' : SyncState) (saved : Bool) (summary : CycleSummary),
      sync_once (.ok fs) cfg st true bs deliver now =
        .ok (st', saved, summary) →
      st' = st ∧ saved = false
      ∧ ∀ p ∈ summary.by_folder, ∀ e ∈ p.2.documents,
          is_document_seen st e.id = false →
          is_document_seen st' e.id = false := by
  intro st' saved summary h
  simp only [sync_once] at h
  rcases hfold : cfg.foldl (syncOnceStep fs bs true deliver now)
    (st, initCycleSummary cfg) with ⟨stF, sumF⟩
  rw [hfold] at h
  simp only [Except.ok.injEq, Prod.mk.injEq] at h
  obtain ⟨h1, h2, h3⟩ := h
  have hh := syncOnce_foldl_dry_state fs bs deliver now cfg st
    (initCycleSummary cfg)
  rw [hfold] at hh
  simp at hh
  refine ⟨hh, rfl, ?_⟩
  intro p hp e he hseen
  rw [hh]
  exact hseen

/-- A remote folder holding the three sample documents. -/
def folderSample : Folder := ⟨"Folder", [docA, docB, docN]⟩

/-- The remote catalog for the sample cycle. -/
def fsSample : List Folder := [folderSample]

/-- The configured folder names for the sample cycle. -/
def cfgSample : List String := ["Folder"]

/-- A delivery oracle on which every webhook send succeeds. -/
def delOk : Doc → Option String := fun _ => none

/-- Result of the sample dry-run cycle. -/
def dryRes : SyncState × Bool × CycleSummary :=
  match sync_once (.ok fsSample) cfgSample stSample true 10 delOk "t1" with
  | .ok r => r
  | .error _ => (stSample, true, initCycleSummary [])

/-- Witness for C6 on the sample cycle. -/
theorem dry_run_no_side_effects_witness :
    dryRes.1 = stSample ∧ dryRes.2.1 = false
    ∧ ∀ p ∈ dryRes.2.2.by_folder, ∀ e ∈ p.2.documents,
        is_document_seen stSample e.id = false →
        is_document_seen dryRes.1 e.id = false :=
  dry_run_no_side_effects fsSample cfgSample stSample 10 delOk "t1"
    dryRes.1 dryRes.2.1 dryRes.2.2 (by rfl)

/-! ### Catalog-fetch failure (claim C7) -/

/-- C7: when fetching the folder catalog raises, `sync_once` propagates
the error to its caller: no summary is produced, no state save happens,
and the state is left untouched. -/
theorem catalog_fetch_error_propagates (e : String) (cfg : List String)
    (st : SyncState) (dry_run : Bool) (bs : Nat)
    (deliver : Doc → Option String) (now : String) :
    sync_once (.error e) cfg st dry_run bs deliver now = .error e := rfl

/-! ### Dry-run counters (claim C10) -/

/-- Total number of reported would-sync documents across the per-folder
breakdown of a cycle summary. -/
def wouldSyncCount (s : CycleSummary) : Nat :=
  (s.by_folder.map (fun p =>
    (p.2.documents.filter (fun e => e.action = "would_sync")).length)).sum

theorem dictGet?_eq_none_iff (d : List (String × α)) (k : String) :
    dictGet? d k = none ↔ k ∉ d.map Prod.fst := by
  induction d with
  | nil => simp [dictGet?]
  | cons hd tl ih =>
    obtain ⟨k', v'⟩ := hd
    by_cases h : k' = k
    · subst h
      simp [dictGet?]
    · simp [dictGet?, h, ih, Ne.symm h]

theorem dictInsert_fresh (d : List (String × α)) (k : String) (v : α)
    (h : k ∉ d.map Prod.fst) : dictInsert k v d = d ++ [(k, v)] := by
  induction d with
  | nil => rfl
  | cons hd tl ih =>
    obtain ⟨k', v'⟩ := hd
    simp only [List.map_cons, List.mem_cons] at h
    push_neg at h
    simp [dictInsert, Ne.symm h.1, ih h.2]

theorem processBatch_dry_summary (st : SyncState) (batch : List Doc)
    (fl : String) (deliver : Doc → Option String) (now : String)
    (acc : FolderSummary) :
    ((processBatch st batch fl true deliver now acc).2).failed = acc.failed
    ∧ ((processBatch st batch fl true deliver now acc).2).synced =
        acc.synced + batch.length
    ∧ ((processBatch st batch fl true deliver now acc).2).documents =
        acc.documents ++ batch.map (fun d =>
          ⟨d.id.getD "", d.title.getD "Untitled", "would_sync"⟩) := by
  induction batch generalizing acc with
  | nil => simp [processBatch]
  | cons d rest ih =>
    have h := ih { acc with
      documents := acc.documents ++
        [⟨d.id.getD "", d.title.getD "Untitled", "would_sync"⟩]
      synced := acc.synced + 1 }
    simp only [processBatch, if_pos] at h ⊢
    refine ⟨h.1, ?_, ?_⟩
    · rw [h.2.1]
      simp
      omega
    · rw [h.2.2]
      simp

theorem sync_documents_dry_summary (st : SyncState) (fl : String)
    (docs : List Doc) (bs : Nat) (deliver : Doc → Option String)
    (now : String) :
    ((sync_documents st fl docs bs true deliver now).2).failed = 0
    ∧ (∀ e ∈ ((sync_documents st fl docs bs true deliver now).2).documents,
        e.action = "would_sync")
    ∧ ((sync_documents st fl docs bs true deliver now).2).synced =
        (((sync_documents st fl docs bs true deliver now).2).documents.filter
          (fun e => e.action = "would_sync")).length := by
  have h := processBatch_dry_summary st
    ((filter_new_documents st docs).take bs) fl deliver now
    { total := docs.length
      new := (filter_new_documents st docs).length
      synced := 0
      failed := 0
      documents := [] }
  simp only [sync_documents]
  refine ⟨h.1, ?_, ?_⟩
  · intro e he
    rw [h.2.2] at he
    simp only [List.nil_append] at he
    obtain ⟨d, hd, rfl⟩ := List.mem_map.mp he
    rfl
  · rw [h.2.2, h.2.1]
    simp only [List.nil_append, Nat.zero_add]
    rw [List.filter_eq_self.mpr]
    · simp
    · intro a ha
      obtain ⟨d, hd, rfl⟩ := List.mem_map.mp ha
      rfl

theorem syncOnce_foldl_dry_summary (fs : List Folder) (bs : Nat)
    (deliver : Doc → Option String) (now : String) :
    ∀ (cfg : List String) (st : SyncState) (sum : CycleSummary),
      cfg.Nodup →
      (∀ n ∈ cfg, n ∉ sum.by_folder.map Prod.fst) →
      sum.documents_failed = 0 →
      sum.documents_synced = wouldSyncCount sum →
      (∀ p ∈ sum.by_folder, ∀ e ∈ p.2.documents, e.action = "would_sync") →
      ((cfg.foldl (syncOnceStep fs bs true deliver now)
          (st, sum)).2.documents_failed = 0
       ∧ (cfg.foldl (syncOnceStep fs bs true deliver now)
            (st, sum)).2.documents_synced =
          wouldSyncCount
            (cfg.foldl (syncOnceStep fs bs true deliver now) (st, sum)).2
       ∧ ∀ p ∈ (cfg.foldl (syncOnceStep fs bs true deliver now)
            (st, sum)).2.by_folder,
           ∀ e ∈ p.2.documents, e.action = "would_sync") := by
  intro cfg
  induction cfg with
  | nil => intro st sum _ _ h1 h2 h3; exact ⟨h1, h2, h3⟩
  | cons name rest ih =>
    intro st sum hnd hfresh h1 h2 h3
    rw [List.foldl_cons]
    have hnm : name ∉ sum.by_folder.map Prod.fst := hfresh name (by simp)
    have hrestnd : rest.Nodup := (List.nodup_cons.mp hnd).2
    have hname_rest : name ∉ rest := (List.nodup_cons.mp hnd).1
    cases hlk : folderLookup fs name with
    | none =>
      have hstep : syncOnceStep fs bs true deliver now (st, sum) name =
          (st, { sum with
            by_folder := dictInsert name emptyFolderSummary sum.by_folder }) := by
        simp [syncOnceStep, hlk]
      rw [hstep]
      refine ih st _ hrestnd ?_ h1 ?_ ?_
      · intro n hn
        show n ∉ (dictInsert name emptyFolderSummary sum.by_folder).map Prod.fst
        rw [dictInsert_fresh _ _ _ hnm]
        simp only [List.map_append, List.mem_append]
        push_neg
        exact ⟨hfresh n (by simp [hn]),
          by simp; exact fun h => hname_rest (h ▸ hn)⟩
      · show sum.documents_synced = wouldSyncCount _
        rw [h2]
        unfold wouldSyncCount
        simp only []
        rw [dictInsert_fresh _ _ _ hnm]
        simp [emptyFolderSummary]
      · intro p hp e he
        simp only [] at hp
        rw [dictInsert_fresh _ _ _ hnm] at hp
        rcases List.mem_append.mp hp with hold | hnew
        · exact h3 p hold e he
        · simp at hnew
          rw [hnew] at he
          simp [emptyFolderSummary] at he
    | some f =>
      have hdry := sync_documents_dry_state st name f.documents bs deliver now
      have hsum := sync_documents_dry_summary st name f.documents bs deliver now
      rcases hsd : sync_documents st name f.documents bs true deliver now
        with ⟨stD, fsum⟩
      rw [hsd] at hdry hsum
      simp only [] at hdry hsum
      have hstep : syncOnceStep fs bs true deliver now (st, sum) name =
          (st, { sum with
            documents_found := sum.documents_found + f.documents.length
            documents_new := sum.documents_new + fsum.new
            documents_synced := sum.documents_synced + fsum.synced
            documents_failed := sum.documents_failed + fsum.failed
            by_folder := dictInsert name fsum sum.by_folder }) := by
        simp [syncOnceStep, hlk, hsd, hdry]
      rw [hstep]
      refine ih st _ hrestnd ?_ ?_ ?_ ?_
      · intro n hn
        show n ∉ (dictInsert name fsum sum.by_folder).map Prod.fst
        rw [dictInsert_fresh _ _ _ hnm]
        simp only [List.map_append, List.mem_append]
        push_neg
        exact ⟨hfresh n (by simp [hn]),
          by simp; exact fun h => hname_rest (h ▸ hn)⟩
      · show sum.documents_failed + fsum.failed = 0
        rw [h1, hsum.1]
      · show sum.documents_synced + fsum.synced = wouldSyncCount _
        rw [h2, hsum.2.2]
        unfold wouldSyncCount
        simp only []
        rw [dictInsert_fresh _ _ _ hnm]
        simp
      · intro p hp e he
        simp only [] at hp
        rw [dictInsert_fresh _ _ _ hnm] at hp
        rcases List.mem_append.mp hp with hold | hnew
        · exact h3 p hold e he
        · simp at hnew
          rw [hnew] at he
          simp only [] at he
          exact hsum.2.1 e he

/-- C10: in a dry-run cycle every reported document carries the action
"would_sync" and increments the per-folder synced counter, so the cycle
summary's `documents_synced` equals the number of would-sync documents and
`documents_failed` is 0 — no distinct would-sync counter exists. -/
theorem dry_run_counter_semantics (fs : List Folder) (cfg : List String)
    (st : SyncState) (bs : Nat) (deliver : Doc → Option String)
    (now : String) (hnd : cfg.Nodup) :
    ∀ (st' : SyncState) (saved : Bool) (summary : CycleSummary),
      sync_once (.ok fs) cfg st true bs deliver now =
        .ok (st', saved, summary) →
      summary.documents_failed = 0
      ∧ summary.documents_synced = wouldSyncCount summary
      ∧ ∀ p ∈ summary.by_folder, ∀ e ∈ p.2.documents,
          e.action = "would_sync" := by
  intro st' saved summary h
  simp only [sync_once] at h
  rcases hfold : cfg.foldl (syncOnceStep fs bs true deliver now)
    (st, initCycleSummary cfg) with ⟨stF, sumF⟩
  rw [hfold] at h
  simp only [Except.ok.injEq, Prod.mk.injEq] at h
  obtain ⟨h1, h2, h3⟩ := h
  have hinv := syncOnce_foldl_dry_summary fs bs deliver now cfg st
    (initCycleSummary cfg) hnd (by simp [initCycleSummary]) rfl
    (by simp [wouldSyncCount, initCycleSummary]) (by simp [initCycleSummary])
  rw [hfold] at hinv
  simpa using hinv

/-- Witness for C10 on the sample dry-run cycle. -/
theorem dry_run_counter_semantics_witness :
    dryRes.2.2.documents_failed = 0
    ∧ dryRes.2.2.documents_synced = wouldSyncCount dryRes.2.2
    ∧ ∀ p ∈ dryRes.2.2.by_folder, ∀ e ∈ p.2.documents,
        e.action = "would_sync" :=
  dry_run_counter_semantics fsSample cfgSample stSample 10 delOk "t1"
    (by decide) dryRes.1 dryRes.2.1 dryRes.2.2 (by rfl)


/-! ### Batch bound (claim C4) -/

theorem mark_synced_lookup_other (st : SyncState) (id i : String) (doc : Doc)
    (fl now : String) (h : i ≠ id) :
    dictGet? (mark_synced st id doc fl now).seen_documents i =
      dictGet? st.seen_documents i
    ∧ dictGet? (mark_synced st id doc fl now).failed_documents i =
      dictGet? st.failed_documents i := by
  constructor
  · simp [mark_synced, dictGet?_insert_ne _ _ _ _ h]
  · simp [mark_synced, dictGet?_erase_ne _ _ _ h]

theorem mark_failed_lookup_other (st : SyncState) (id i : String)
    (err fl : String) (odoc : Option Doc) (now : String) (h : i ≠ id) :
    dictGet? (mark_failed st id err fl odoc now).seen_documents i =
      dictGet? st.seen_documents i
    ∧ dictGet? (mark_failed st id err fl odoc now).failed_documents i =
      dictGet? st.failed_documents i := by
  constructor
  · rfl
  · simp [mark_failed, dictGet?_insert_ne _ _ _ _ h]

theorem processBatch_preserves (fl : String) (dr : Bool)
    (deliver : Doc → Option String) (now : String) :
    ∀ (batch : List Doc) (st : SyncState) (acc : FolderSummary) (i : String),
      i ∉ batch.map (fun d => d.id.getD "") →
      dictGet? ((processBatch st batch fl dr deliver now acc).1).seen_documents
          i = dictGet? st.seen_documents i
      ∧ dictGet?
          ((processBatch st batch fl dr deliver now acc).1).failed_documents
          i = dictGet? st.failed_documents i := by
  intro batch
  induction batch with
  | nil => intro st acc i _; exact ⟨rfl, rfl⟩
  | cons d rest ih =>
    intro st acc i hi
    simp only [List.map_cons, List.mem_cons] at hi
    push_neg at hi
    obtain ⟨hid, hrest⟩ := hi
    by_cases hdr : dr
    · subst hdr
      simp only [processBatch, if_pos]
      exact ih st _ i hrest
    · simp only [Bool.not_eq_true] at hdr
      subst hdr
      cases hdel : deliver d with
      | none =>
        have hm := mark_synced_lookup_other st (d.id.getD "") i d fl now hid
        simp only [processBatch, process_document, hdel,
          Bool.false_eq_true, if_false]
        exact ⟨(ih _ _ i hrest).1.trans hm.1, (ih _ _ i hrest).2.trans hm.2⟩
      | some e =>
        have hm := mark_failed_lookup_other st (d.id.getD "") i e fl (some d)
          now hid
        simp only [processBatch, process_document, hdel,
          Bool.false_eq_true, if_false]
        exact ⟨(ih _ _ i hrest).1.trans hm.1, (ih _ _ i hrest).2.trans hm.2⟩

theorem processBatch_doc_ids (fl : String) (dr : Bool)
    (deliver : Doc → Option String) (now : String) :
    ∀ (batch : List Doc) (st : SyncState) (acc : FolderSummary),
      ((processBatch st batch fl dr deliver now acc).2).documents.map
          DocEntry.id =
        acc.documents.map DocEntry.id ++
          batch.map (fun d => d.id.getD "") := by
  intro batch
  induction batch with
  | nil => intro st acc; simp [processBatch]
  | cons d rest ih =>
    intro st acc
    by_cases hdr : dr
    · subst hdr
      simp only [processBatch, if_pos]
      rw [ih]
      simp
    · simp only [Bool.not_eq_true] at hdr
      subst hdr
      cases hdel : deliver d with
      | none =>
        simp only [processBatch, process_document, hdel,
          Bool.false_eq_true, if_false]
        rw [ih]
        simp
      | some e =>
        simp only [processBatch, process_document, hdel,
          Bool.false_eq_true, if_false]
        rw [ih]
        simp

theorem specSelected_congr (st st' : SyncState) (d : Doc)
    (h : dictGet? st'.seen_documents (d.id.getD "") =
      dictGet? st.seen_documents (d.id.getD "")) :
    specSelected st' d = specSelected st d := by
  simp [specSelected, h]

/-- C4: with batch size `k` and more than `k` eligible documents, exactly
the first `k` eligible documents in iteration order are processed (one
summary row each), the state entries of the remaining documents are
untouched, and re-running the change detector on the remainder against
the post-cycle state selects all of them again. -/
theorem batch_bound_spec (st : SyncState) (fl : String) (docs : List Doc)
    (k : Nat) (deliver : Doc → Option String) (now : String)
    (hnd : ((filter_new_documents st docs).map
      (fun d => d.id.getD "")).Nodup)
    (hm : k < (filter_new_documents st docs).length) :
    ∀ (st' : SyncState) (fsum : FolderSummary),
      sync_documents st fl docs k false deliver now = (st', fsum) →
      fsum.documents.map DocEntry.id =
        ((filter_new_documents st docs).take k).map (fun d => d.id.getD "")
      ∧ fsum.documents.length = k
      ∧ (∀ d ∈ (filter_new_documents st docs).drop k,
          dictGet? st'.seen_documents (d.id.getD "") =
            dictGet? st.seen_documents (d.id.getD "")
          ∧ dictGet? st'.failed_documents (d.id.getD "") =
            dictGet? st.failed_documents (d.id.getD ""))
      ∧ filter_new_documents st' ((filter_new_documents st docs).drop k) =
          (filter_new_documents st docs).drop k := by
  intro st' fsum h
  simp only [sync_documents] at h
  have hids := processBatch_doc_ids fl false deliver now
    ((filter_new_documents st docs).take k) st
    { total := docs.length
      new := (filter_new_documents st docs).length
      synced := 0
      failed := 0
      documents := [] }
  rw [h] at hids
  simp only [List.map_nil, List.nil_append] at hids
  have hdisj : ∀ d ∈ (filter_new_documents st docs).drop k,
      (d.id.getD "") ∉
        ((filter_new_documents st docs).take k).map (fun x => x.id.getD "") := by
    intro d hd
    have hsplit : (filter_new_documents st docs).map (fun x => x.id.getD "") =
        ((filter_new_documents st docs).take k).map (fun x => x.id.getD "") ++
        ((filter_new_documents st docs).drop k).map (fun x => x.id.getD "") := by
      rw [← List.map_append, List.take_append_drop]
    rw [hsplit] at hnd
    have hdisj' := (List.nodup_append.mp hnd).2.2
    intro hmem
    exact hdisj' hmem (List.mem_map_of_mem _ hd)
  have hpres : ∀ d ∈ (filter_new_documents st docs).drop k,
      dictGet? st'.seen_documents (d.id.getD "") =
        dictGet? st.seen_documents (d.id.getD "")
      ∧ dictGet? st'.failed_documents (d.id.getD "") =
        dictGet? st.failed_documents (d.id.getD "") := by
    intro d hd
    have hp := processBatch_preserves fl false deliver now
      ((filter_new_documents st docs).take k) st
      { total := docs.length
        new := (filter_new_documents st docs).length
        synced := 0
        failed := 0
        documents := [] }
      (d.id.getD "") (hdisj d hd)
    rw [h] at hp
    exact hp
  refine ⟨hids, ?_, hpres, ?_⟩
  · have := congrArg List.length hids
    simp only [List.length_map] at this
    rw [this, List.length_take]
    omega
  · rw [filter_new_documents_eq_filter]
    apply List.filter_eq_self.mpr
    intro d hd
    rw [specSelected_congr st st' d (hpres d hd).1]
    have hmem : d ∈ filter_new_documents st docs :=
      List.mem_of_mem_drop hd
    rw [filter_new_documents_eq_filter] at hmem
    exact List.of_mem_filter hmem

/-- A second never-seen document. -/
def docC : Doc := ⟨some "c", some "C", some "c3", none⟩

/-- Result of the sample live cycle with batch size 1. -/
def c4res : SyncState × FolderSummary :=
  sync_documents stSample "Folder" [docB, docC] 1 false delOk "t2"

/-- Witness for C4: two fresh documents, batch size 1, every delivery
succeeding. -/
theorem batch_bound_spec_witness :
    c4res.2.documents.map DocEntry.id =
      ((filter_new_documents stSample [docB, docC]).take 1).map
        (fun d => d.id.getD "")
    ∧ c4res.2.documents.length = 1
    ∧ (∀ d ∈ (filter_new_documents stSample [docB, docC]).drop 1,
        dictGet? c4res.1.seen_documents (d.id.getD "") =
          dictGet? stSample.seen_documents (d.id.getD "")
        ∧ dictGet? c4res.1.failed_documents (d.id.getD "") =
          dictGet? stSample.failed_documents (d.id.getD ""))
    ∧ filter_new_documents c4res.1
        ((filter_new_documents stSample [docB, docC]).drop 1) =
        (filter_new_documents stSample [docB, docC]).drop 1 :=
  batch_bound_spec stSample "Folder" [docB, docC] 1 delOk "t2" (by decide)
    (by decide) c4res.1 c4res.2 (by rfl)
